import Mathlib

/-!
Verification of the calendar CLI (`src/main.go`): a shallow embedding of its
time parsing, calendar selection, event CRUD operations and credential store,
with theorems settling the specification claims C1-C10.

Strings are modelled by Lean `String` (a wrapper around `List Char`); the
parsing and formatting functions work on the underlying character lists.
-/

namespace TnpCalendar

/-! ### Characters and digits -/

/-- ASCII digit test, as Go's `isDigit` in the `time` package (`'0' <= c && c <= '9'`). -/
def isDigitChar (c : Char) : Bool := decide (48 ≤ c.toNat ∧ c.toNat ≤ 57)

/-- Numeric value of an ASCII digit character. -/
def digitVal (c : Char) : Nat := c.toNat - 48

/-- The ASCII digit character for `n ≤ 9`, as produced by Go's `appendInt`. -/
def digitChar : Nat → Char
  | 0 => '0' | 1 => '1' | 2 => '2' | 3 => '3' | 4 => '4'
  | 5 => '5' | 6 => '6' | 7 => '7' | 8 => '8' | _ => '9'

/-! ### Reading numeric fields, as Go `time.Parse` does

Go's `getnum(s, fixed := true)` (layout verbs `01`, `02`, `04`, `05`) requires
exactly two digits; `getnum(s, fixed := false)` (layout verb `15`, the hour)
takes two digits when available, otherwise one.  The verb `2006` takes exactly
four digit characters (`isDigit` check plus `atoi` over the 4-byte slice). -/

/-- Two-digit field (Go `getnum` with `fixed = true`). -/
def readFixed2 : List Char → Option (Nat × List Char)
  | a :: b :: rest =>
      if isDigitChar a && isDigitChar b then
        some (10 * digitVal a + digitVal b, rest)
      else none
  | _ => none

/-- Four-digit year (Go layout verb `2006`). -/
def readYear4 : List Char → Option (Nat × List Char)
  | a :: b :: c :: d :: rest =>
      if isDigitChar a && isDigitChar b && isDigitChar c && isDigitChar d then
        some (1000 * digitVal a + 100 * digitVal b + 10 * digitVal c + digitVal d, rest)
      else none
  | _ => none

/-- One-or-two-digit field (Go `getnum` with `fixed = false`): two digits when
the second character is also a digit, otherwise one. -/
def readNum12 : List Char → Option (Nat × List Char)
  | a :: b :: rest =>
      if isDigitChar a then
        if isDigitChar b then some (10 * digitVal a + digitVal b, rest)
        else some (digitVal a, b :: rest)
      else none
  | [a] => if isDigitChar a then some (digitVal a, []) else none
  | [] => none

/-- A literal layout character must match the input exactly. -/
def expectChar (c : Char) : List Char → Option (List Char)
  | x :: rest => if x = c then some rest else none
  | [] => none

/-! ### Civil date-times -/

/-- A civil date-time as parsed from the `2006-01-02 15:04` layout
(year, month, day, 24-hour hour, minute; seconds are implicitly zero). -/
structure Civil where
  year : Nat
  month : Nat
  day : Nat
  hour : Nat
  minute : Nat
deriving DecidableEq, Repr

/-- Gregorian leap-year rule, as Go's `isLeap`. -/
def isLeap (y : Nat) : Bool := y % 4 == 0 && (y % 100 != 0 || y % 400 == 0)

/-- Days in a month, as Go's `daysIn`. -/
def daysIn (month year : Nat) : Nat :=
  if month = 2 then (if isLeap year then 29 else 28)
  else if month = 4 ∨ month = 6 ∨ month = 9 ∨ month = 11 then 30
  else 31

/-- Model of Go `time.Parse("2006-01-02 15:04", input)`: four-digit year,
literal `-`, two-digit month, literal `-`, two-digit day, literal space,
one-or-two-digit hour, literal `:`, two-digit minute, end of input; then the
range checks Go performs (month 1-12, hour 0-23, minute 0-59, day within the
month).  The resulting time is in UTC because the layout carries no zone. -/
def parseCivil (cs : List Char) : Option Civil := do
  let (y, cs) ← readYear4 cs
  let cs ← expectChar '-' cs
  let (mo, cs) ← readFixed2 cs
  let cs ← expectChar '-' cs
  let (d, cs) ← readFixed2 cs
  let cs ← expectChar ' ' cs
  let (h, cs) ← readNum12 cs
  let cs ← expectChar ':' cs
  let (mi, cs) ← readFixed2 cs
  if cs.isEmpty ∧ 1 ≤ mo ∧ mo ≤ 12 ∧ h ≤ 23 ∧ mi ≤ 59 ∧ 1 ≤ d ∧ d ≤ daysIn mo y
  then some ⟨y, mo, d, h, mi⟩ else none

/-! ### RFC 3339 wire timestamps -/

/-- A parsed RFC 3339 timestamp: civil fields, seconds, and the UTC offset
(in minutes) carried by the zone designator. -/
structure RFCTime where
  civil : Civil
  sec : Nat
  offsetMin : Int
deriving DecidableEq, Repr

/-- Zone designator of an RFC 3339 timestamp: `Z` (or `z`) for UTC, else a
signed `hh:mm` offset with the digit-count and range checks Go performs. -/
def readZone : List Char → Option (Int × List Char)
  | 'Z' :: rest => some (0, rest)
  | 'z' :: rest => some (0, rest)
  | '+' :: rest => do
      let (h, rest) ← readFixed2 rest
      let rest ← expectChar ':' rest
      let (m, rest) ← readFixed2 rest
      if h ≤ 23 ∧ m ≤ 59 then some ((h * 60 + m : Nat), rest) else none
  | '-' :: rest => do
      let (h, rest) ← readFixed2 rest
      let rest ← expectChar ':' rest
      let (m, rest) ← readFixed2 rest
      if h ≤ 23 ∧ m ≤ 59 then some (-((h * 60 + m : Nat) : Int), rest) else none
  | _ => none

/-- Model of Go `time.Parse(time.RFC3339, input)` (fractional seconds, which
no claim exercises and which this program never produces, are omitted). -/
def parseRFC3339 (cs : List Char) : Option RFCTime := do
  let (y, cs) ← readYear4 cs
  let cs ← expectChar '-' cs
  let (mo, cs) ← readFixed2 cs
  let cs ← expectChar '-' cs
  let (d, cs) ← readFixed2 cs
  let cs ← expectChar 'T' cs
  let (h, cs) ← readFixed2 cs
  let cs ← expectChar ':' cs
  let (mi, cs) ← readFixed2 cs
  let cs ← expectChar ':' cs
  let (s, cs) ← readFixed2 cs
  let (off, cs) ← readZone cs
  if cs.isEmpty ∧ 1 ≤ mo ∧ mo ≤ 12 ∧ h ≤ 23 ∧ mi ≤ 59 ∧ s ≤ 59 ∧ 1 ≤ d ∧ d ≤ daysIn mo y
  then some ⟨⟨y, mo, d, h, mi⟩, s, off⟩ else none

/-- Two-digit zero-padded decimal rendering. -/
def pad2 (n : Nat) : List Char := [digitChar (n / 10), digitChar (n % 10)]

/-- Four-digit zero-padded decimal rendering (years are at most 9999 here). -/
def pad4 (n : Nat) : List Char :=
  [digitChar (n / 1000), digitChar (n / 100 % 10), digitChar (n / 10 % 10), digitChar (n % 10)]

/-- Model of Go `t.Format(time.RFC3339)` for a UTC time with zero seconds, as
produced by `parseTime`: `YYYY-MM-DDTHH:MM:00Z`. -/
def formatRFC3339 (c : Civil) : String :=
  String.mk (pad4 c.year ++ '-' :: pad2 c.month ++ '-' :: pad2 c.day ++
    'T' :: pad2 c.hour ++ ':' :: pad2 c.minute ++ ':' :: pad2 0 ++ ['Z'])

/-! ### Instants -/

/-- Days in the years `[0, y)` of the proleptic Gregorian calendar. -/
def daysBeforeYear (y : Nat) : Nat :=
  365 * y + (y + 3) / 4 - (y + 99) / 100 + (y + 399) / 400

/-- Days before the first of `month` within `year`. -/
def daysBeforeMonth (month year : Nat) : Nat :=
  (match month with
   | 1 => 0 | 2 => 31 | 3 => 59 | 4 => 90 | 5 => 120 | 6 => 151
   | 7 => 181 | 8 => 212 | 9 => 243 | 10 => 273 | 11 => 304 | _ => 334)
  + (if 3 ≤ month ∧ isLeap year then 1 else 0)

/-- Minutes from the epoch `0000-01-01 00:00` to a civil date-time. -/
def civilToMin (c : Civil) : Nat :=
  ((daysBeforeYear c.year + daysBeforeMonth c.month c.year + (c.day - 1)) * 24 + c.hour) * 60
    + c.minute

/-- The instant (seconds) denoted by a civil date-time read in UTC, as
`time.Parse` of the civil layout yields. -/
def civilInstantSec (c : Civil) : Int := (civilToMin c : Int) * 60

/-- The instant (seconds) denoted by a parsed RFC 3339 timestamp. -/
def rfcInstantSec (t : RFCTime) : Int :=
  (civilToMin t.civil : Int) * 60 + t.sec - t.offsetMin * 60

/-- The instant of Go's zero `time.Time`: January 1, year 1, 00:00:00 UTC. -/
def zeroInstantSec : Int := civilInstantSec ⟨1, 1, 1, 0, 0⟩

/-- Model of `t, _ := time.Parse(time.RFC3339, s)` followed by using `t` as an
instant: a parse error is discarded and the zero time stands in. -/
def goInstantOrZero (s : String) : Int :=
  match parseRFC3339 s.data with
  | some t => rfcInstantSec t
  | none => zeroInstantSec

/-! ### Errors

The program reports errors through `error` values built with `fmt.Errorf`;
they are modelled as a structured type carrying the distinguishing data of
each message (for the time-format error, the expected pattern quoted in the
message and the wrapped cause). -/

/-- The error values the modelled operations can produce. -/
inductive GoErr where
  | invalidFormat (pattern : String) (cause : String)
  | validationError (msg : String)
  | invalidSelection
  | noCalendars
  | notFound (path : String)
  | decodeError (path : String)
  | remoteError (msg : String)
deriving DecidableEq, Repr

deriving instance DecidableEq for Except

/-! ### Console input -/

/-- Go `unicode.IsSpace` on the Latin-1 range (the white-space characters a
trimmed console line can carry; higher code points are looked up in tables
and none occurs in the claims). -/
def isGoSpace (c : Char) : Bool :=
  c = ' ' ∨ c = '\t' ∨ c = '\n' ∨ c = '\x0B' ∨ c = '\x0C' ∨ c = '\r' ∨
    c = '\u0085' ∨ c = ' '

/-- Model of Go `strings.TrimSpace`. -/
def goTrimSpace (s : String) : String :=
  String.mk (((s.data.dropWhile isGoSpace).reverse.dropWhile isGoSpace).reverse)

/-- `promptForInput` prints its prompt and returns the entered line with
surrounding white space trimmed; the model takes the raw line as argument. -/
def promptForInput (rawLine : String) : String := goTrimSpace rawLine

/-- ASCII lower-casing of one character. -/
def goToLowerChar (c : Char) : Char :=
  if 65 ≤ c.toNat ∧ c.toNat ≤ 90 then Char.ofNat (c.toNat + 32) else c

/-- Model of Go `strings.ToLower` on ASCII (no rune outside ASCII has the
simple lower-case mapping `y`, the only letter the program compares against). -/
def goToLower (s : String) : String := String.mk (s.data.map goToLowerChar)

/-! ### Fixed configuration constants (`const` block of `main.go`) -/

/-- The civil layout accepted by `parseTime`. -/
def timeFormat : String := "2006-01-02 15:04"

/-- The fixed time zone name attached to event bounds. -/
def timeZone : String := "Asia/Kolkata"

/-- Model of `parseTime`: parse the civil layout, and on success format the
resulting (UTC) time as RFC 3339; on failure wrap the cause in the message
`invalid time format (use YYYY-MM-DD HH:MM): ...`. -/
def parseTime (input : String) : Except GoErr String :=
  match parseCivil input.data with
  | some c => .ok (formatRFC3339 c)
  | none => .error (.invalidFormat "YYYY-MM-DD HH:MM" "cannot parse as 2006-01-02 15:04")

/-! ### Calendar selection -/

/-- A calendar list entry: identifier and human-readable summary. -/
structure CalendarEntry where
  id : String
  summary : String
deriving DecidableEq, Repr

/-- The number of items `fmt.Sscanf(s, "%d", new(int))` reports as scanned:
`1` when the input (after any leading spaces) begins with an optionally signed
decimal integer, `0` otherwise; the error is `nil` exactly when the count is
`1`.  The parsed integer itself is stored into the discarded `new(int)`.
(Machine-integer overflow of absurdly long inputs is elided.) -/
def sscanfIntCount (s : String) : Nat :=
  let cs := s.data.dropWhile (fun c => c = ' ' ∨ c = '\t' ∨ c = '\n' ∨ c = '\r')
  let cs := match cs with
    | '-' :: rest => rest
    | '+' :: rest => rest
    | rest => rest
  match cs with
  | c :: _ => if isDigitChar c then 1 else 0
  | [] => 0

/-- Model of `selectCalendar` after the calendar list has been fetched and the
selection line read: the guard `err == nil && index > 0` holds exactly when
`sscanfIntCount` is `1`, and `idx` is again the scan count, not the entered
number. -/
def selectCalendar (calendars : List CalendarEntry) (selectionLine : String) :
    Except GoErr String :=
  if calendars.length = 0 then .error .noCalendars
  else
    let calendarSelection := promptForInput selectionLine
    if sscanfIntCount calendarSelection = 1 then
      let idx := sscanfIntCount calendarSelection
      if h : idx ≤ calendars.length ∧ 1 ≤ idx then
        .ok (calendars.get ⟨idx - 1, by omega⟩).id
      else .error .invalidSelection
    else .ok calendarSelection

/-! ### Events and the CRUD operations -/

/-- The start or end bound of an event, as the wire schema carries it. -/
structure EventDateTime where
  dateTime : String
  timeZone : String
  date : String
deriving DecidableEq, Repr

/-- An event, restricted to the fields the program reads or writes. -/
structure Event where
  summary : String
  description : String
  start : EventDateTime
  «end» : EventDateTime
deriving DecidableEq, Repr

/-- The outcome of `createEvent` or `updateEvent`: the event submitted to the
remote service (`none` when no submission was issued), the lines printed, and
the returned value (the created/updated identifier on success). -/
structure OpResult where
  submitted : Option Event
  printed : List String
  result : Except GoErr String
deriving DecidableEq, Repr

/-- Model of `createEvent`.  The four prompt lines are the raw console input;
the remote `Events.Insert` call is the `remoteInsert` capability, returning
the created identifier. -/
def createEvent (titleLine descLine startLine endLine : String)
    (remoteInsert : Event → Except String String) : OpResult :=
  let title := promptForInput titleLine
  let desc := promptForInput descLine
  let startInput := promptForInput startLine
  match parseTime startInput with
  | .error e => ⟨none, [], .error e⟩
  | .ok startTime =>
    let endInput := promptForInput endLine
    match parseTime endInput with
    | .error e => ⟨none, [], .error e⟩
    | .ok endTime =>
      if goInstantOrZero endTime < goInstantOrZero startTime then
        ⟨none, [], .error (.validationError "end time cannot be before start time")⟩
      else
        let event : Event :=
          { summary := title, description := desc,
            start := { dateTime := startTime, timeZone := timeZone, date := "" },
            «end» := { dateTime := endTime, timeZone := timeZone, date := "" } }
        match remoteInsert event with
        | .ok createdId => ⟨some event, ["Event created successfully! ID: " ++ createdId], .ok createdId⟩
        | .error m => ⟨some event, [], .error (.remoteError m)⟩

/-- Model of `updateEvent`.  `remoteGet` is `Events.Get` and `remoteUpdate` is
`Events.Update`; the five prompt lines are the raw console input (the time
lines are only read inside the `y` gate). -/
def updateEvent (idLine titleLine descLine updateTimeLine startLine endLine : String)
    (remoteGet : String → Except String Event)
    (remoteUpdate : String → Event → Except String String) : OpResult :=
  let id := promptForInput idLine
  match remoteGet id with
  | .error m => ⟨none, [], .error (.remoteError m)⟩
  | .ok event0 =>
    let title := promptForInput titleLine
    let event1 := if title ≠ "" then { event0 with summary := title } else event0
    let desc := promptForInput descLine
    let event2 := if desc ≠ "" then { event1 with description := desc } else event1
    let updateTime := promptForInput updateTimeLine
    if goToLower updateTime = "y" then
      let startInput := promptForInput startLine
      match (if startInput ≠ "" then
               match parseTime startInput with
               | .error e => .error e
               | .ok st => .ok { event2 with start := { event2.start with dateTime := st } }
             else .ok event2 : Except GoErr Event) with
      | .error e => ⟨none, [], .error e⟩
      | .ok event3 =>
        let endInput := promptForInput endLine
        match (if endInput ≠ "" then
                 match parseTime endInput with
                 | .error e => .error e
                 | .ok et => .ok { event3 with «end» := { event3.«end» with dateTime := et } }
               else .ok event3 : Except GoErr Event) with
        | .error e => ⟨none, [], .error e⟩
        | .ok event4 =>
          if goInstantOrZero event4.«end».dateTime < goInstantOrZero event4.start.dateTime then
            ⟨none, [], .error (.validationError "end time cannot be before start time")⟩
          else
            match remoteUpdate id event4 with
            | .ok updatedId => ⟨some event4, ["Event updated successfully! ID: " ++ updatedId], .ok updatedId⟩
            | .error m => ⟨some event4, [], .error (.remoteError m)⟩
    else
      match remoteUpdate id event2 with
      | .ok updatedId => ⟨some event2, ["Event updated successfully! ID: " ++ updatedId], .ok updatedId⟩
      | .error m => ⟨some event2, [], .error (.remoteError m)⟩

/-- The outcome of `deleteEvent`: whether the remote delete was issued, the
lines printed, and the returned value. -/
structure DeleteResult where
  remoteDeleteCalled : Bool
  printed : List String
  result : Except GoErr Unit
deriving DecidableEq, Repr

/-- Model of `deleteEvent`: any confirmation other than a case-insensitive
`y` prints the cancellation notice and returns success without touching the
remote service. -/
def deleteEvent (idLine confirmLine : String)
    (remoteDelete : String → Except String Unit) : DeleteResult :=
  let id := promptForInput idLine
  let confirm := promptForInput confirmLine
  if goToLower confirm ≠ "y" then ⟨false, ["Deletion cancelled."], .ok ()⟩
  else
    match remoteDelete id with
    | .ok _ => ⟨true, ["Event deleted successfully."], .ok ()⟩
    | .error m => ⟨true, [], .error (.remoteError m)⟩

/-! ### The credential store

`saveToken` truncates/creates `<home>/token.json` and writes
`json.NewEncoder(f).Encode(token)`; `tokenFromFile` opens the file and
decodes one JSON value.  The file system is a map from paths to contents.
The serializable fields of `oauth2.Token` are its four exported members,
each modelled as an opaque string (the expiry is kept in its serialized
form); `token_type` and `refresh_token` carry `omitempty`. -/

/-- A cached OAuth2 credential record. -/
structure Token where
  access_token : String
  token_type : String
  refresh_token : String
  expiry : String
deriving DecidableEq, Repr

/-- Lower-case hexadecimal digit, as `encoding/json` emits in `\u` escapes. -/
def hexDigitChar (n : Nat) : Char :=
  if n = 10 then 'a' else if n = 11 then 'b' else if n = 12 then 'c'
  else if n = 13 then 'd' else if n = 14 then 'e' else if n = 15 then 'f'
  else digitChar n

/-- Hexadecimal digit test (both cases, as the decoder accepts). -/
def isHexChar (c : Char) : Bool :=
  isDigitChar c ∨ decide (97 ≤ c.toNat ∧ c.toNat ≤ 102) ∨ decide (65 ≤ c.toNat ∧ c.toNat ≤ 70)

/-- Value of a hexadecimal digit. -/
def hexVal (c : Char) : Nat :=
  if 97 ≤ c.toNat then c.toNat - 87 else if 65 ≤ c.toNat then c.toNat - 55 else digitVal c

/-- How `encoding/json` (with its default HTML escaping) renders one
character inside a string literal. -/
def escapeChar (c : Char) : List Char :=
  if c = '"' then ['\\', '"']
  else if c = '\\' then ['\\', '\\']
  else if c = '\n' then ['\\', 'n']
  else if c = '\r' then ['\\', 'r']
  else if c = '\t' then ['\\', 't']
  else if c.toNat < 32 ∨ c = '<' ∨ c = '>' ∨ c = '&' then
    ['\\', 'u', '0', '0', hexDigitChar (c.toNat / 16), hexDigitChar (c.toNat % 16)]
  else if c.toNat = 8232 ∨ c.toNat = 8233 then
    ['\\', 'u', '2', '0', '2', hexDigitChar (c.toNat % 16)]
  else [c]

/-- JSON string-body rendering of a character sequence. -/
def escapeString : List Char → List Char
  | [] => []
  | c :: cs => escapeChar c ++ escapeString cs

/-- The character a single-character JSON escape denotes. -/
def unescapeSimple (e : Char) : Option Char :=
  if e = '"' then some '"' else if e = '\\' then some '\\' else if e = '/' then some '/'
  else if e = 'b' then some '\x08' else if e = 'f' then some '\x0C'
  else if e = 'n' then some '\n' else if e = 'r' then some '\r' else if e = 't' then some '\t'
  else none

/-- JSON string-body parser: consumes characters up to the closing quote,
resolving escapes, and returns the decoded body and the rest of the input.
(Surrogate-pair recombination is elided; the encoder never emits one.) -/
def parseJString : List Char → Option (List Char × List Char)
  | [] => none
  | c :: rest =>
    if c = '"' then some ([], rest)
    else if c = '\\' then
      match rest with
      | [] => none
      | e :: rest2 =>
        if e = 'u' then
          match rest2 with
          | h1 :: h2 :: h3 :: h4 :: rest3 =>
            if isHexChar h1 && isHexChar h2 && isHexChar h3 && isHexChar h4 then
              (fun p => (Char.ofNat (4096 * hexVal h1 + 256 * hexVal h2 + 16 * hexVal h3 + hexVal h4) :: p.1, p.2))
                <$> parseJString rest3
            else none
          | _ => none
        else
          match unescapeSimple e with
          | some d => (fun p => (d :: p.1, p.2)) <$> parseJString rest2
          | none => none
    else if c.toNat < 32 then none
    else (fun p => (c :: p.1, p.2)) <$> parseJString rest

/-- A rendered `"key":"value"` member. -/
def jsonField (key v : String) : List Char :=
  '"' :: escapeString key.data ++ '"' :: ':' :: '"' :: escapeString v.data ++ ['"']

/-- Rendering of the token record, in struct-field order, omitting the
`omitempty` members when empty, with the trailing newline `Encoder.Encode`
appends.  (`expires_in`, also `omitempty`, is zero in a cached record and
stays omitted.) -/
def encodeToken (t : Token) : String :=
  String.mk ('{' :: jsonField "access_token" t.access_token
    ++ (if t.token_type = "" then [] else ',' :: jsonField "token_type" t.token_type)
    ++ (if t.refresh_token = "" then [] else ',' :: jsonField "refresh_token" t.refresh_token)
    ++ ',' :: jsonField "expiry" t.expiry
    ++ ['}', '\n'])

/-- One `"key":"value"` member (both strings). -/
def parsePair (cs : List Char) : Option ((List Char × List Char) × List Char) :=
  match cs with
  | '"' :: rest =>
    match parseJString rest with
    | none => none
    | some (key, rest1) =>
      match expectChar ':' rest1 with
      | none => none
      | some rest2 =>
        match rest2 with
        | '"' :: rest3 =>
          match parseJString rest3 with
          | none => none
          | some (v, rest4) => some ((key, v), rest4)
        | _ => none
  | _ => none

/-- A non-empty comma-separated member list (fuel-bounded; the fuel the
callers pass always exceeds the member count). -/
def parsePairs : Nat → List Char → Option (List (List Char × List Char) × List Char)
  | 0, _ => none
  | fuel + 1, cs =>
    match parsePair cs with
    | none => none
    | some (p, rest) =>
      match rest with
      | ',' :: rest2 =>
        match parsePairs fuel rest2 with
        | some (ps, rest3) => some (p :: ps, rest3)
        | none => none
      | _ => some ([p], rest)

/-- Whatever may follow the decoded value in the stream (the encoder's
trailing newline, or nothing). -/
def trailingOk : List Char → Bool
  | [] => true
  | ['\n'] => true
  | _ => false

/-- The last value bound to `key` among the decoded members (unknown keys are
ignored, later duplicates win, a missing key leaves the zero value). -/
def getStr (pairs : List (List Char × List Char)) (key : String) : String :=
  match pairs.reverse.find? (fun p => p.1 == key.data) with
  | some p => String.mk p.2
  | none => ""

/-- Decoding of a token record from a JSON object of string members. -/
def decodeToken (s : String) : Option Token :=
  match s.data with
  | '{' :: rest =>
    if rest.head? = some '}' then
      (if trailingOk rest.tail then some ⟨"", "", "", ""⟩ else none)
    else
      match parsePairs (rest.length + 1) rest with
      | some (pairs, '}' :: rest2) =>
        if trailingOk rest2 then
          some ⟨getStr pairs "access_token", getStr pairs "token_type",
                getStr pairs "refresh_token", getStr pairs "expiry"⟩
        else none
      | _ => none
  | _ => none

/-- The local file system, a map from paths to file contents. -/
def FileSystem : Type := String → Option String

/-- Model of `saveToken`: truncate-and-rewrite the record at `path`. -/
def saveToken (fs : FileSystem) (path : String) (token : Token) : FileSystem :=
  fun p => if p = path then some (encodeToken token) else fs p

/-- Model of `tokenFromFile`: a missing file surfaces as the open error
(`NotFound`); otherwise the content is decoded. -/
def tokenFromFile (fs : FileSystem) (file : String) : Except GoErr Token :=
  match fs file with
  | none => .error (.notFound file)
  | some content =>
    match decodeToken content with
    | some tok => .ok tok
    | none => .error (.decodeError file)

/-! ### Spec-side format predicates -/

/-- Modelled from the spec: the fixed civil format as the spec words and its
example state it — `YYYY-MM-DD HH:MM` with a four-digit year and zero-padded
two-digit month, day, 24-hour hour and minute (the example `2024-03-15 09:30`
and the error pattern `YYYY-MM-DD HH:MM` both write two-digit fields), all
field values in range. -/
def specFixedFormat (s : String) : Bool :=
  match s.data with
  | [y1, y2, y3, y4, s1, m1, m2, s2, d1, d2, s3, h1, h2, s4, n1, n2] =>
    (s1 == '-') && (s2 == '-') && (s3 == ' ') && (s4 == ':') &&
    isDigitChar y1 && isDigitChar y2 && isDigitChar y3 && isDigitChar y4 &&
    isDigitChar m1 && isDigitChar m2 && isDigitChar d1 && isDigitChar d2 &&
    isDigitChar h1 && isDigitChar h2 && isDigitChar n1 && isDigitChar n2 &&
    (let y := 1000 * digitVal y1 + 100 * digitVal y2 + 10 * digitVal y3 + digitVal y4
     let mo := 10 * digitVal m1 + digitVal m2
     let d := 10 * digitVal d1 + digitVal d2
     let h := 10 * digitVal h1 + digitVal h2
     let mi := 10 * digitVal n1 + digitVal n2
     decide (1 ≤ mo) && decide (mo ≤ 12) && decide (1 ≤ d) && decide (d ≤ daysIn mo y) &&
       decide (h ≤ 23) && decide (mi ≤ 59))
  | _ => false

/-- The civil strings the code accepts: as `specFixedFormat`, except that the
hour may also be a single digit (Go's non-padded hour verb `15`). -/
def goAcceptedFormat (s : String) : Bool :=
  specFixedFormat s ||
  (match s.data with
   | [y1, y2, y3, y4, s1, m1, m2, s2, d1, d2, s3, h1, s4, n1, n2] =>
     (s1 == '-') && (s2 == '-') && (s3 == ' ') && (s4 == ':') &&
     isDigitChar y1 && isDigitChar y2 && isDigitChar y3 && isDigitChar y4 &&
     isDigitChar m1 && isDigitChar m2 && isDigitChar d1 && isDigitChar d2 &&
     isDigitChar h1 && isDigitChar n1 && isDigitChar n2 &&
     (let y := 1000 * digitVal y1 + 100 * digitVal y2 + 10 * digitVal y3 + digitVal y4
      let mo := 10 * digitVal m1 + digitVal m2
      let d := 10 * digitVal d1 + digitVal d2
      let mi := 10 * digitVal n1 + digitVal n2
      decide (1 ≤ mo) && decide (mo ≤ 12) && decide (1 ≤ d) && decide (d ≤ daysIn mo y) &&
        decide (mi ≤ 59))
   | _ => false)

/-- Modelled from the spec: the fixed configured time zone `Asia/Kolkata`
has the constant UTC offset +05:30, i.e. 330 minutes — the offset an RFC 3339
timestamp would have to embed to carry that zone. -/
def kolkataOffsetMin : Int := 330

/-! ### Derived views of the Update operation body -/

/-- The event carrying the merged title and description: the body of
`updateEvent` after the two field prompts. -/
def mergedEvent (ev : Event) (t d : String) : Event :=
  if d ≠ "" then
    { (if t ≠ "" then { ev with summary := t } else ev) with description := d }
  else (if t ≠ "" then { ev with summary := t } else ev)

/-- The start bound's date-time replaced, when a new one was parsed. -/
def withStartWire (ev : Event) : Option String → Event
  | none => ev
  | some w => { ev with start := { ev.start with dateTime := w } }

/-- The end bound's date-time replaced, when a new one was parsed. -/
def withEndWire (ev : Event) : Option String → Event
  | none => ev
  | some w => { ev with «end» := { ev.«end» with dateTime := w } }

/-- The tail of `updateEvent` inside the time gate: the start-before-end check
on the merged event, then the remote submission. -/
def gateSubmit (id : String) (remoteUpdate : String → Event → Except String String)
    (ev4 : Event) : OpResult :=
  if goInstantOrZero ev4.«end».dateTime < goInstantOrZero ev4.start.dateTime then
    ⟨none, [], .error (.validationError "end time cannot be before start time")⟩
  else
    match remoteUpdate id ev4 with
    | .ok uid => ⟨some ev4, ["Event updated successfully! ID: " ++ uid], .ok uid⟩
    | .error m => ⟨some ev4, [], .error (.remoteError m)⟩

/-! ### Digit lemmas -/

theorem digitChar_isDigit (k : Nat) (h : k ≤ 9) : isDigitChar (digitChar k) = true := by
  interval_cases k <;> decide

theorem digitVal_digitChar (k : Nat) (h : k ≤ 9) : digitVal (digitChar k) = k := by
  interval_cases k <;> decide

theorem digitVal_le_of_isDigit {c : Char} (h : isDigitChar c = true) : digitVal c ≤ 9 := by
  simp only [isDigitChar, decide_eq_true_eq] at h
  simp only [digitVal]
  omega

theorem readFixed2_pad2 (n : Nat) (h : n ≤ 99) (rest : List Char) :
    readFixed2 (pad2 n ++ rest) = some (n, rest) := by
  have h1 : n / 10 ≤ 9 := by omega
  have h2 : n % 10 ≤ 9 := by omega
  simp only [pad2, List.cons_append, List.nil_append, readFixed2,
    digitChar_isDigit _ h1, digitChar_isDigit _ h2, Bool.and_self, if_true,
    digitVal_digitChar _ h1, digitVal_digitChar _ h2]
  congr 1
  ext
  · omega
  · rfl

theorem readYear4_pad4 (n : Nat) (h : n ≤ 9999) (rest : List Char) :
    readYear4 (pad4 n ++ rest) = some (n, rest) := by
  have h1 : n / 1000 ≤ 9 := by omega
  have h2 : n / 100 % 10 ≤ 9 := by omega
  have h3 : n / 10 % 10 ≤ 9 := by omega
  have h4 : n % 10 ≤ 9 := by omega
  simp only [pad4, List.cons_append, List.nil_append, readYear4,
    digitChar_isDigit _ h1, digitChar_isDigit _ h2, digitChar_isDigit _ h3,
    digitChar_isDigit _ h4, Bool.and_self, if_true,
    digitVal_digitChar _ h1, digitVal_digitChar _ h2, digitVal_digitChar _ h3,
    digitVal_digitChar _ h4]
  congr 1
  ext
  · omega
  · rfl

theorem expectChar_cons (c : Char) (rest : List Char) :
    expectChar c (c :: rest) = some rest := by
  simp [expectChar]

/-! ### Round trip of the produced wire format -/

theorem daysIn_le_31 (mo y : Nat) : daysIn mo y ≤ 31 := by
  unfold daysIn; split_ifs <;> omega

theorem parseRFC3339_formatRFC3339 (c : Civil)
    (hy : c.year ≤ 9999) (hm1 : 1 ≤ c.month) (hm2 : c.month ≤ 12)
    (hh : c.hour ≤ 23) (hmi : c.minute ≤ 59)
    (hd1 : 1 ≤ c.day) (hd2 : c.day ≤ daysIn c.month c.year) :
    parseRFC3339 (formatRFC3339 c).data = some ⟨c, 0, 0⟩ := by
  obtain ⟨y, mo, d, h, mi⟩ := c
  simp only at hy hm1 hm2 hh hmi hd1 hd2
  have hmo99 : mo ≤ 99 := by omega
  have hd99 : d ≤ 99 := by
    have h31 : daysIn mo y ≤ 31 := daysIn_le_31 mo y
    omega
  have hh99 : h ≤ 99 := by omega
  have hmi99 : mi ≤ 99 := by omega
  have h099 : (0 : Nat) ≤ 99 := by omega
  have hz : readZone ['Z'] = some (0, []) := rfl
  simp only [formatRFC3339, parseRFC3339, List.cons_append, List.append_assoc,
    readYear4_pad4 y hy, readFixed2_pad2 mo hmo99, readFixed2_pad2 d hd99,
    readFixed2_pad2 h hh99, readFixed2_pad2 mi hmi99, readFixed2_pad2 0 h099,
    expectChar_cons, hz, Option.bind_eq_bind, Option.some_bind]
  simp [hy, hm1, hm2, hh, hmi, hd1, hd2]

/-! ### Inversion of the civil parser -/

theorem expectChar_inv {ch : Char} {cs rest : List Char}
    (h : expectChar ch cs = some rest) : cs = ch :: rest := by
  cases cs with
  | nil => simp [expectChar] at h
  | cons x t =>
    simp only [expectChar] at h
    split at h
    · rename_i hx
      rw [Option.some.injEq] at h
      rw [hx, h]
    · simp at h

theorem readFixed2_inv {cs : List Char} {n : Nat} {rest : List Char}
    (h : readFixed2 cs = some (n, rest)) :
    ∃ a b, cs = a :: b :: rest ∧ isDigitChar a = true ∧ isDigitChar b = true ∧
      n = 10 * digitVal a + digitVal b := by
  rcases cs with _ | ⟨a, _ | ⟨b, t⟩⟩
  · simp [readFixed2] at h
  · simp [readFixed2] at h
  · simp only [readFixed2] at h
    split at h
    · rename_i hd
      rw [Option.some.injEq, Prod.mk.injEq] at h
      rw [Bool.and_eq_true] at hd
      exact ⟨a, b, by rw [h.2], hd.1, hd.2, h.1.symm⟩
    · simp at h

theorem readYear4_inv {cs : List Char} {n : Nat} {rest : List Char}
    (h : readYear4 cs = some (n, rest)) :
    ∃ a b c d, cs = a :: b :: c :: d :: rest ∧ isDigitChar a = true ∧ isDigitChar b = true ∧
      isDigitChar c = true ∧ isDigitChar d = true ∧
      n = 1000 * digitVal a + 100 * digitVal b + 10 * digitVal c + digitVal d := by
  rcases cs with _ | ⟨a, _ | ⟨b, _ | ⟨c, _ | ⟨d, t⟩⟩⟩⟩
  · simp [readYear4] at h
  · simp [readYear4] at h
  · simp [readYear4] at h
  · simp [readYear4] at h
  · simp only [readYear4] at h
    split at h
    · rename_i hd
      rw [Option.some.injEq, Prod.mk.injEq] at h
      simp only [Bool.and_eq_true] at hd
      exact ⟨a, b, c, d, by rw [h.2], hd.1.1.1, hd.1.1.2, hd.1.2, hd.2, h.1.symm⟩
    · simp at h

theorem readNum12_inv {cs : List Char} {n : Nat} {rest : List Char}
    (h : readNum12 cs = some (n, rest)) :
    (∃ a b, cs = a :: b :: rest ∧ isDigitChar a = true ∧ isDigitChar b = true ∧
       n = 10 * digitVal a + digitVal b) ∨
    (∃ a, cs = a :: rest ∧ isDigitChar a = true ∧ n = digitVal a ∧
       ∀ b l, rest = b :: l → isDigitChar b = false) := by
  rcases cs with _ | ⟨a, _ | ⟨b, t⟩⟩
  · simp [readNum12] at h
  · simp only [readNum12] at h
    split at h
    · rename_i hd
      rw [Option.some.injEq, Prod.mk.injEq] at h
      refine .inr ⟨a, ?_, hd, h.1.symm, ?_⟩
      · rw [← h.2]
      · intro b l hl
        rw [← h.2] at hl
        cases hl
    · simp at h
  · simp only [readNum12] at h
    split at h
    · rename_i hda
      split at h
      · rename_i hdb
        rw [Option.some.injEq, Prod.mk.injEq] at h
        exact .inl ⟨a, b, by rw [h.2], hda, hdb, h.1.symm⟩
      · rename_i hdb
        rw [Option.some.injEq, Prod.mk.injEq] at h
        refine .inr ⟨a, ?_, hda, h.1.symm, ?_⟩
        · rw [← h.2]
        · intro b' l hl
          rw [← h.2] at hl
          rw [List.cons.injEq] at hl
          rw [← hl.1]
          exact Bool.eq_false_iff.mpr hdb
    · simp at h

theorem data_mk (cs : List Char) : (String.mk cs).data = cs := rfl

theorem parseCivil_inv {cs : List Char} {c : Civil} (h : parseCivil cs = some c) :
    goAcceptedFormat (String.mk cs) = true ∧
    c.year ≤ 9999 ∧ 1 ≤ c.month ∧ c.month ≤ 12 ∧ c.hour ≤ 23 ∧ c.minute ≤ 59 ∧
    1 ≤ c.day ∧ c.day ≤ daysIn c.month c.year := by
  rw [parseCivil] at h
  simp only [Option.bind_eq_bind, Option.bind_eq_some] at h
  obtain ⟨⟨y, cs1⟩, h1, h⟩ := h
  obtain ⟨cs2, h2, h⟩ := h
  obtain ⟨⟨mo, cs3⟩, h3, h⟩ := h
  obtain ⟨cs4, h4, h⟩ := h
  obtain ⟨⟨d, cs5⟩, h5, h⟩ := h
  obtain ⟨cs6, h6, h⟩ := h
  obtain ⟨⟨hr, cs7⟩, h7, h⟩ := h
  obtain ⟨cs8, h8, h⟩ := h
  obtain ⟨⟨mi, cs9⟩, h9, h⟩ := h
  split at h
  case isFalse => simp at h
  case isTrue hcond =>
  rw [Option.some.injEq] at h
  subst h
  obtain ⟨hE, hm1, hm2, hh23, hmi59, hd1, hd2⟩ := hcond
  have hcs9 : cs9 = [] := List.isEmpty_iff.mp hE
  subst hcs9
  obtain ⟨a1, a2, a3, a4, hcs, hA1, hA2, hA3, hA4, hyv⟩ := readYear4_inv h1
  have hcs1 : cs1 = '-' :: cs2 := expectChar_inv h2
  obtain ⟨b1, b2, hcs2, hB1, hB2, hmov⟩ := readFixed2_inv h3
  have hcs3 : cs3 = '-' :: cs4 := expectChar_inv h4
  obtain ⟨c1, c2, hcs4, hC1, hC2, hdv⟩ := readFixed2_inv h5
  have hcs5 : cs5 = ' ' :: cs6 := expectChar_inv h6
  have hcs7 : cs7 = ':' :: cs8 := expectChar_inv h8
  obtain ⟨e1, e2, hcs8, hE1, hE2, hmiv⟩ := readFixed2_inv h9
  have hy9999 : y ≤ 9999 := by
    have := digitVal_le_of_isDigit hA1
    have := digitVal_le_of_isDigit hA2
    have := digitVal_le_of_isDigit hA3
    have := digitVal_le_of_isDigit hA4
    omega
  refine ⟨?_, hy9999, hm1, hm2, hh23, hmi59, hd1, hd2⟩
  rcases readNum12_inv h7 with ⟨f1, f2, hcs6, hF1, hF2, hhv⟩ | ⟨f1, hcs6, hF1, hhv, hnd⟩
  · subst hyv hmov hdv hhv hmiv
    subst hcs hcs1 hcs2 hcs3 hcs4 hcs5 hcs6 hcs7 hcs8
    simp only [goAcceptedFormat, data_mk, Bool.or_eq_true]
    refine Or.inl ?_
    simp only [specFixedFormat]
    simp [hA1, hA2, hA3, hA4, hB1, hB2, hC1, hC2, hF1, hF2, hE1, hE2,
      hm1, hm2, hh23, hmi59, hd1, hd2]
  · subst hyv hmov hdv hhv hmiv
    subst hcs hcs1 hcs2 hcs3 hcs4 hcs5 hcs6 hcs7 hcs8
    simp only [goAcceptedFormat, data_mk, Bool.or_eq_true]
    refine Or.inr ?_
    simp [hA1, hA2, hA3, hA4, hB1, hB2, hC1, hC2, hF1, hE1, hE2,
      hm1, hm2, hmi59, hd1, hd2]

theorem hexDigitChar_isHex (k : Nat) (h : k ≤ 15) : isHexChar (hexDigitChar k) = true := by
  interval_cases k <;> decide

theorem hexVal_hexDigitChar (k : Nat) (h : k ≤ 15) : hexVal (hexDigitChar k) = k := by
  interval_cases k <;> decide

theorem parseJString_quote (tail : List Char) :
    parseJString ('"' :: tail) = some ([], tail) := by
  rw [parseJString.eq_def]
  simp only []
  simp

theorem parseJString_plain (c : Char) (tail : List Char)
    (hq : ¬c = '"') (hb : ¬c = '\\') (h32 : ¬c.toNat < 32) :
    parseJString (c :: tail) = (fun p => (c :: p.1, p.2)) <$> parseJString tail := by
  rw [parseJString.eq_def]
  simp only []
  rw [if_neg hq, if_neg hb, if_neg h32]

theorem parseJString_simpleEsc (e d : Char) (tail : List Char)
    (he : unescapeSimple e = some d) (hne : ¬e = 'u') :
    parseJString ('\\' :: e :: tail) = (fun p => (d :: p.1, p.2)) <$> parseJString tail := by
  rw [parseJString.eq_def]
  simp only []
  simp only [if_true, if_neg hne, he]
  rw [if_neg (by decide)]

theorem parseJString_uEsc (h1 h2 h3 h4 : Char) (tail : List Char)
    (hh1 : isHexChar h1 = true) (hh2 : isHexChar h2 = true)
    (hh3 : isHexChar h3 = true) (hh4 : isHexChar h4 = true) :
    parseJString ('\\' :: 'u' :: h1 :: h2 :: h3 :: h4 :: tail) =
      (fun p => (Char.ofNat (4096 * hexVal h1 + 256 * hexVal h2 + 16 * hexVal h3 + hexVal h4) :: p.1, p.2))
        <$> parseJString tail := by
  rw [parseJString.eq_def]
  simp only []
  simp [hh1, hh2, hh3, hh4]

theorem parseJString_escapeChar (c : Char) (tail : List Char) :
    parseJString (escapeChar c ++ tail) =
      (fun p => (c :: p.1, p.2)) <$> parseJString tail := by
  by_cases hq : c = '"'
  · subst hq
    show parseJString ('\\' :: '"' :: tail) = _
    rw [parseJString_simpleEsc '"' '"' tail (by decide) (by decide)]
  · by_cases hb : c = '\\'
    · subst hb
      show parseJString ('\\' :: '\\' :: tail) = _
      rw [parseJString_simpleEsc '\\' '\\' tail (by decide) (by decide)]
    · by_cases hn : c = '\n'
      · subst hn
        show parseJString ('\\' :: 'n' :: tail) = _
        rw [parseJString_simpleEsc 'n' '\n' tail (by decide) (by decide)]
      · by_cases hr : c = '\r'
        · subst hr
          show parseJString ('\\' :: 'r' :: tail) = _
          rw [parseJString_simpleEsc 'r' '\r' tail (by decide) (by decide)]
        · by_cases ht : c = '\t'
          · subst ht
            show parseJString ('\\' :: 't' :: tail) = _
            rw [parseJString_simpleEsc 't' '\t' tail (by decide) (by decide)]
          · by_cases hc : c.toNat < 32 ∨ c = '<' ∨ c = '>' ∨ c = '&'
            · have h16a : c.toNat / 16 ≤ 15 := by
                rcases hc with h | h | h | h
                · omega
                all_goals (subst h; decide)
              have h16b : c.toNat % 16 ≤ 15 := by omega
              simp only [escapeChar, if_neg hq, if_neg hb, if_neg hn, if_neg hr, if_neg ht,
                if_pos hc, List.cons_append, List.nil_append]
              rw [parseJString_uEsc _ _ _ _ tail (by decide) (by decide)
                (hexDigitChar_isHex _ h16a) (hexDigitChar_isHex _ h16b)]
              rw [hexVal_hexDigitChar _ h16a, hexVal_hexDigitChar _ h16b]
              have hcode : 4096 * hexVal '0' + 256 * hexVal '0' + 16 * (c.toNat / 16) + c.toNat % 16
                  = c.toNat := by
                have : hexVal '0' = 0 := by decide
                omega
              rw [hcode, Char.ofNat_toNat]
            · by_cases hs : c.toNat = 8232 ∨ c.toNat = 8233
              · have h16b : c.toNat % 16 ≤ 15 := by omega
                simp only [escapeChar, if_neg hq, if_neg hb, if_neg hn, if_neg hr, if_neg ht,
                  if_neg hc, if_pos hs, List.cons_append, List.nil_append]
                rw [parseJString_uEsc _ _ _ _ tail (by decide) (by decide)
                  (by decide) (hexDigitChar_isHex _ h16b)]
                rw [hexVal_hexDigitChar _ h16b]
                have hcode : 4096 * hexVal '2' + 256 * hexVal '0' + 16 * hexVal '2' + c.toNat % 16
                    = c.toNat := by
                  have e2 : hexVal '2' = 2 := by decide
                  have e0 : hexVal '0' = 0 := by decide
                  omega
                rw [hcode, Char.ofNat_toNat]
              · simp only [escapeChar, if_neg hq, if_neg hb, if_neg hn, if_neg hr, if_neg ht,
                  if_neg hc, if_neg hs, List.cons_append, List.nil_append]
                rw [parseJString_plain c tail hq hb (by omega)]

theorem parseJString_escapeString (v tail : List Char) :
    parseJString (escapeString v ++ '"' :: tail) = some (v, tail) := by
  induction v with
  | nil =>
    rw [escapeString]
    rw [List.nil_append, parseJString_quote]
  | cons c cs ih =>
    rw [escapeString, List.append_assoc, parseJString_escapeChar, ih]
    rfl



theorem parsePair_jsonField (k v : String) (rest : List Char) :
    parsePair (jsonField k v ++ rest) = some ((k.data, v.data), rest) := by
  have hshape : jsonField k v ++ rest
      = '"' :: (escapeString k.data ++ '"' :: ':' :: '"' :: (escapeString v.data ++ '"' :: rest)) := by
    simp [jsonField]
  rw [hshape, parsePair]
  rw [parseJString_escapeString]
  simp only [expectChar_cons]
  rw [parseJString_escapeString]

theorem parsePairs_step_comma (fuel : Nat) (cs : List Char)
    (p : List Char × List Char) (rest2 : List Char)
    (hp : parsePair cs = some (p, ',' :: rest2)) :
    parsePairs (fuel + 1) cs = (fun r => (p :: r.1, r.2)) <$> parsePairs fuel rest2 := by
  simp only [parsePairs, hp]
  cases parsePairs fuel rest2 with
  | none => rfl
  | some r => rfl

theorem parsePairs_last (fuel : Nat) (cs : List Char)
    (p : List Char × List Char) (r0 : Char) (rtail : List Char)
    (hp : parsePair cs = some (p, r0 :: rtail)) (hne : ¬r0 = ',') :
    parsePairs (fuel + 1) cs = some ([p], r0 :: rtail) := by
  simp only [parsePairs, hp]
  split
  · rename_i heq
    rw [List.cons.injEq] at heq
    exact absurd heq.1 hne
  · rfl

theorem parsePairs_mono (f g : Nat) (hfg : f ≤ g) (cs : List Char)
    (res : List (List Char × List Char) × List Char)
    (h : parsePairs f cs = some res) : parsePairs g cs = some res := by
  induction f generalizing g cs res with
  | zero => rw [parsePairs] at h; cases h
  | succ f ih =>
    obtain ⟨g', rfl⟩ : ∃ g', g = g' + 1 := ⟨g - 1, by omega⟩
    cases hp : parsePair cs with
    | none => rw [parsePairs, hp] at h; cases h
    | some pr =>
      obtain ⟨p, rest⟩ := pr
      cases rest with
      | nil =>
        simp only [parsePairs, hp] at h
        simp only [parsePairs, hp]
        exact h
      | cons r0 rtail =>
        by_cases hcomma : r0 = ','
        · subst hcomma
          rw [parsePairs_step_comma f cs p rtail hp] at h
          rw [parsePairs_step_comma g' cs p rtail hp]
          cases hrec : parsePairs f rtail with
          | none => rw [hrec] at h; cases h
          | some res2 =>
            rw [hrec] at h
            rw [ih g' (by omega) rtail res2 hrec]
            exact h
        · rw [parsePairs_last f cs p r0 rtail hp hcomma] at h
          rw [parsePairs_last g' cs p r0 rtail hp hcomma]
          exact h

theorem mk_data (s : String) : String.mk s.data = s := rfl

theorem decodeToken_encodeToken (t : Token) : decodeToken (encodeToken t) = some t := by
  obtain ⟨a, ty, rt, ex⟩ := t
  by_cases hty : ty = ""
  · by_cases hrt : rt = ""
    · -- ty = "", rt = "": only access_token and expiry are emitted
      subst hty; subst hrt
      have hdata : (encodeToken ⟨a, "", "", ex⟩).data
          = '{' :: (jsonField "access_token" a ++ ',' :: (jsonField "expiry" ex ++ '}' :: ['\n'])) := by
        simp [encodeToken, List.append_assoc]
      rw [decodeToken, hdata]
      simp only []
      rw [if_neg (by rw [show (jsonField "access_token" a ++ _).head? = some '"' from rfl]; decide)]
      have hp1 := parsePair_jsonField "access_token" a
        (',' :: (jsonField "expiry" ex ++ '}' :: ['\n']))
      have hp4 := parsePair_jsonField "expiry" ex ('}' :: ['\n'])
      have h2 : parsePairs 2 (jsonField "access_token" a
          ++ ',' :: (jsonField "expiry" ex ++ '}' :: ['\n']))
          = some ([("access_token".data, a.data), ("expiry".data, ex.data)], '}' :: ['\n']) := by
        rw [show (2 : Nat) = 1 + 1 from rfl, parsePairs_step_comma 1 _ _ _ hp1]
        rw [parsePairs_last 0 _ _ '}' ['\n'] hp4 (by decide)]
        rfl
      have hkeylen : (escapeString "access_token".data).length = 12 := rfl
      have hj17 : 17 ≤ (jsonField "access_token" a).length := by
        simp [jsonField, hkeylen]
        omega
      have hlen : 2 ≤ (jsonField "access_token" a
          ++ ',' :: (jsonField "expiry" ex ++ '}' :: ['\n'])).length + 1 := by
        rw [List.length_append, List.length_cons]
        omega
      rw [parsePairs_mono 2 _ hlen _ _ h2]
      simp only [trailingOk, if_true]
      rw [Option.some.injEq, Token.mk.injEq]
      refine ⟨?_, ?_, ?_, ?_⟩ <;> simp [getStr, mk_data]
    · -- ty = "", rt ≠ "": token_type is omitted
      subst hty
      have hdata : (encodeToken ⟨a, "", rt, ex⟩).data
          = '{' :: (jsonField "access_token" a ++ ',' :: (jsonField "refresh_token" rt
              ++ ',' :: (jsonField "expiry" ex ++ '}' :: ['\n']))) := by
        simp [encodeToken, if_neg hrt, List.append_assoc]
      rw [decodeToken, hdata]
      simp only []
      rw [if_neg (by rw [show (jsonField "access_token" a ++ _).head? = some '"' from rfl]; decide)]
      have hp1 := parsePair_jsonField "access_token" a
        (',' :: (jsonField "refresh_token" rt ++ ',' :: (jsonField "expiry" ex ++ '}' :: ['\n'])))
      have hp3 := parsePair_jsonField "refresh_token" rt
        (',' :: (jsonField "expiry" ex ++ '}' :: ['\n']))
      have hp4 := parsePair_jsonField "expiry" ex ('}' :: ['\n'])
      have h3 : parsePairs 3 (jsonField "access_token" a ++ ',' :: (jsonField "refresh_token" rt
          ++ ',' :: (jsonField "expiry" ex ++ '}' :: ['\n'])))
          = some ([("access_token".data, a.data), ("refresh_token".data, rt.data),
                   ("expiry".data, ex.data)], '}' :: ['\n']) := by
        rw [show (3 : Nat) = 2 + 1 from rfl, parsePairs_step_comma 2 _ _ _ hp1]
        rw [show (2 : Nat) = 1 + 1 from rfl, parsePairs_step_comma 1 _ _ _ hp3]
        rw [parsePairs_last 0 _ _ '}' ['\n'] hp4 (by decide)]
        rfl
      have hkeylen : (escapeString "access_token".data).length = 12 := rfl
      have hj17 : 17 ≤ (jsonField "access_token" a).length := by
        simp [jsonField, hkeylen]
        omega
      have hlen : 3 ≤ (jsonField "access_token" a ++ ',' :: (jsonField "refresh_token" rt
          ++ ',' :: (jsonField "expiry" ex ++ '}' :: ['\n']))).length + 1 := by
        rw [List.length_append, List.length_cons]
        omega
      rw [parsePairs_mono 3 _ hlen _ _ h3]
      simp only [trailingOk, if_true]
      rw [Option.some.injEq, Token.mk.injEq]
      refine ⟨?_, ?_, ?_, ?_⟩ <;> simp [getStr, mk_data]
  · by_cases hrt : rt = ""
    · -- ty ≠ "", rt = "": refresh_token is omitted
      subst hrt
      have hdata : (encodeToken ⟨a, ty, "", ex⟩).data
          = '{' :: (jsonField "access_token" a ++ ',' :: (jsonField "token_type" ty
              ++ ',' :: (jsonField "expiry" ex ++ '}' :: ['\n']))) := by
        simp [encodeToken, if_neg hty, List.append_assoc]
      rw [decodeToken, hdata]
      simp only []
      rw [if_neg (by rw [show (jsonField "access_token" a ++ _).head? = some '"' from rfl]; decide)]
      have hp1 := parsePair_jsonField "access_token" a
        (',' :: (jsonField "token_type" ty ++ ',' :: (jsonField "expiry" ex ++ '}' :: ['\n'])))
      have hp2 := parsePair_jsonField "token_type" ty
        (',' :: (jsonField "expiry" ex ++ '}' :: ['\n']))
      have hp4 := parsePair_jsonField "expiry" ex ('}' :: ['\n'])
      have h3 : parsePairs 3 (jsonField "access_token" a ++ ',' :: (jsonField "token_type" ty
          ++ ',' :: (jsonField "expiry" ex ++ '}' :: ['\n'])))
          = some ([("access_token".data, a.data), ("token_type".data, ty.data),
                   ("expiry".data, ex.data)], '}' :: ['\n']) := by
        rw [show (3 : Nat) = 2 + 1 from rfl, parsePairs_step_comma 2 _ _ _ hp1]
        rw [show (2 : Nat) = 1 + 1 from rfl, parsePairs_step_comma 1 _ _ _ hp2]
        rw [parsePairs_last 0 _ _ '}' ['\n'] hp4 (by decide)]
        rfl
      have hkeylen : (escapeString "access_token".data).length = 12 := rfl
      have hj17 : 17 ≤ (jsonField "access_token" a).length := by
        simp [jsonField, hkeylen]
        omega
      have hlen : 3 ≤ (jsonField "access_token" a ++ ',' :: (jsonField "token_type" ty
          ++ ',' :: (jsonField "expiry" ex ++ '}' :: ['\n']))).length + 1 := by
        rw [List.length_append, List.length_cons]
        omega
      rw [parsePairs_mono 3 _ hlen _ _ h3]
      simp only [trailingOk, if_true]
      rw [Option.some.injEq, Token.mk.injEq]
      refine ⟨?_, ?_, ?_, ?_⟩ <;> simp [getStr, mk_data, hty]
    · have hdata : (encodeToken ⟨a, ty, rt, ex⟩).data
          = '{' :: (jsonField "access_token" a ++ ',' :: (jsonField "token_type" ty
              ++ ',' :: (jsonField "refresh_token" rt
              ++ ',' :: (jsonField "expiry" ex ++ '}' :: ['\n'])))) := by
        simp [encodeToken, if_neg hty, if_neg hrt, List.append_assoc]
      rw [decodeToken, hdata]
      simp only []
      rw [if_neg (by rw [show (jsonField "access_token" a ++ _).head? = some '"' from rfl]; decide)]
      have hp1 := parsePair_jsonField "access_token" a
        (',' :: (jsonField "token_type" ty ++ ',' :: (jsonField "refresh_token" rt
          ++ ',' :: (jsonField "expiry" ex ++ '}' :: ['\n']))))
      have hp2 := parsePair_jsonField "token_type" ty
        (',' :: (jsonField "refresh_token" rt ++ ',' :: (jsonField "expiry" ex ++ '}' :: ['\n'])))
      have hp3 := parsePair_jsonField "refresh_token" rt
        (',' :: (jsonField "expiry" ex ++ '}' :: ['\n']))
      have hp4 := parsePair_jsonField "expiry" ex ('}' :: ['\n'])
      have h4 : parsePairs 4 (jsonField "access_token" a ++ ',' :: (jsonField "token_type" ty
          ++ ',' :: (jsonField "refresh_token" rt ++ ',' :: (jsonField "expiry" ex ++ '}' :: ['\n']))))
          = some ([("access_token".data, a.data), ("token_type".data, ty.data),
                   ("refresh_token".data, rt.data), ("expiry".data, ex.data)], '}' :: ['\n']) := by
        rw [show (4 : Nat) = 3 + 1 from rfl, parsePairs_step_comma 3 _ _ _ hp1]
        rw [show (3 : Nat) = 2 + 1 from rfl, parsePairs_step_comma 2 _ _ _ hp2]
        rw [show (2 : Nat) = 1 + 1 from rfl, parsePairs_step_comma 1 _ _ _ hp3]
        rw [parsePairs_last 0 _ _ '}' ['\n'] hp4 (by decide)]
        rfl
      have hkeylen : (escapeString "access_token".data).length = 12 := rfl
      have hj17 : 17 ≤ (jsonField "access_token" a).length := by
        simp [jsonField, hkeylen]
        omega
      have hlen : 4 ≤ (jsonField "access_token" a ++ ',' :: (jsonField "token_type" ty
          ++ ',' :: (jsonField "refresh_token" rt
          ++ ',' :: (jsonField "expiry" ex ++ '}' :: ['\n'])))).length + 1 := by
        rw [List.length_append, List.length_cons]
        omega
      rw [parsePairs_mono 4 _ hlen _ _ h4]
      simp only [trailingOk, if_true]
      rw [Option.some.injEq, Token.mk.injEq]
      refine ⟨?_, ?_, ?_, ?_⟩ <;> simp [getStr, mk_data]

/-! ### Helper lemmas about the Update operation -/

theorem updateEvent_gateDeclined
    (idLine tLine dLine gLine sLine eLine : String)
    (remoteGet : String → Except String Event)
    (remoteUpdate : String → Event → Except String String)
    (ev : Event)
    (hget : remoteGet (promptForInput idLine) = .ok ev)
    (hgate : ¬goToLower (promptForInput gLine) = "y") :
    ∃ ev2 : Event,
      ev2.summary = (if promptForInput tLine ≠ "" then promptForInput tLine else ev.summary) ∧
      ev2.description = (if promptForInput dLine ≠ "" then promptForInput dLine else ev.description) ∧
      ev2.start = ev.start ∧ ev2.«end» = ev.«end» ∧
      updateEvent idLine tLine dLine gLine sLine eLine remoteGet remoteUpdate =
        (match remoteUpdate (promptForInput idLine) ev2 with
         | .ok uid => ⟨some ev2, ["Event updated successfully! ID: " ++ uid], .ok uid⟩
         | .error m => ⟨some ev2, [], .error (.remoteError m)⟩) := by
  by_cases ht : promptForInput tLine = ""
  · by_cases hd : promptForInput dLine = ""
    · exact ⟨ev, by simp [ht], by simp [hd], rfl, rfl, by
        simp only [updateEvent, hget, ht, hd]
        simp [hgate]⟩
    · exact ⟨{ ev with description := promptForInput dLine }, by simp [ht], by simp [hd],
        rfl, rfl, by
          simp only [updateEvent, hget]
          simp [ht, hd, hgate]⟩
  · by_cases hd : promptForInput dLine = ""
    · exact ⟨{ ev with summary := promptForInput tLine }, by simp [ht], by simp [hd],
        rfl, rfl, by
          simp only [updateEvent, hget]
          simp [ht, hd, hgate]⟩
    · exact ⟨{ ev with summary := promptForInput tLine, description := promptForInput dLine },
        by simp [ht], by simp [hd], rfl, rfl, by
          simp only [updateEvent, hget]
          simp [ht, hd, hgate]⟩


theorem mergedEvent_start (ev : Event) (t d : String) :
    (mergedEvent ev t d).start = ev.start := by
  rw [mergedEvent]; split_ifs <;> rfl

theorem mergedEvent_end (ev : Event) (t d : String) :
    (mergedEvent ev t d).«end» = ev.«end» := by
  rw [mergedEvent]; split_ifs <;> rfl

theorem mergedEvent_summary (ev : Event) (t d : String) :
    (mergedEvent ev t d).summary = (if t ≠ "" then t else ev.summary) := by
  rw [mergedEvent]; split_ifs <;> rfl

theorem mergedEvent_description (ev : Event) (t d : String) :
    (mergedEvent ev t d).description = (if d ≠ "" then d else ev.description) := by
  rw [mergedEvent]; split_ifs <;> rfl

theorem updateEvent_gateMerged
    (idLine tLine dLine gLine sLine eLine : String)
    (remoteGet : String → Except String Event)
    (remoteUpdate : String → Event → Except String String)
    (ev : Event)
    (hget : remoteGet (promptForInput idLine) = .ok ev)
    (hgate : goToLower (promptForInput gLine) = "y")
    (ms me : String)
    (hms : promptForInput sLine = "" ∧ ms = ev.start.dateTime ∨
           promptForInput sLine ≠ "" ∧ parseTime (promptForInput sLine) = .ok ms)
    (hme : promptForInput eLine = "" ∧ me = ev.«end».dateTime ∨
           promptForInput eLine ≠ "" ∧ parseTime (promptForInput eLine) = .ok me) :
    ∃ sOpt eOpt : Option String,
      updateEvent idLine tLine dLine gLine sLine eLine remoteGet remoteUpdate =
        gateSubmit (promptForInput idLine) remoteUpdate
          (withEndWire (withStartWire
            (mergedEvent ev (promptForInput tLine) (promptForInput dLine)) sOpt) eOpt) ∧
      (withEndWire (withStartWire
        (mergedEvent ev (promptForInput tLine) (promptForInput dLine)) sOpt) eOpt).start.dateTime
          = ms ∧
      (withEndWire (withStartWire
        (mergedEvent ev (promptForInput tLine) (promptForInput dLine)) sOpt) eOpt).«end».dateTime
          = me := by
  rcases hms with ⟨hsb, rfl⟩ | ⟨hsnb, hsparse⟩ <;> rcases hme with ⟨heb, rfl⟩ | ⟨henb, heparse⟩
  · refine ⟨none, none, ?_, ?_, ?_⟩
    · simp only [updateEvent, hget, hgate, hsb, heb]
      simp [gateSubmit, withStartWire, withEndWire, mergedEvent]
    · simp [withStartWire, withEndWire, mergedEvent_start]
    · simp [withStartWire, withEndWire, mergedEvent_end]
  · refine ⟨none, some me, ?_, ?_, ?_⟩
    · simp only [updateEvent, hget, hgate, hsb]
      simp [henb, heparse, gateSubmit, withStartWire, withEndWire, mergedEvent]
    · simp [withStartWire, withEndWire, mergedEvent_start]
    · simp [withStartWire, withEndWire]
  · refine ⟨some ms, none, ?_, ?_, ?_⟩
    · simp only [updateEvent, hget, hgate, heb]
      simp [hsnb, hsparse, gateSubmit, withStartWire, withEndWire, mergedEvent]
    · simp [withStartWire, withEndWire]
    · simp [withStartWire, withEndWire, mergedEvent_end]
  · refine ⟨some ms, some me, ?_, ?_, ?_⟩
    · simp only [updateEvent, hget, hgate]
      simp [hsnb, hsparse, henb, heparse, gateSubmit, withStartWire, withEndWire, mergedEvent]
    · simp [withStartWire, withEndWire]
    · simp [withStartWire, withEndWire]

/-! ### The claims -/

/-- C1: evaluation of `selectCalendar` at the spec's test inputs. Against a
3-item list, the numeric selections "2" and "7" both resolve to the FIRST
item's identifier — the code uses `fmt.Sscanf`'s scanned-item count, which is
1 on every successful scan, as the index — so "2" does not reach the 2nd item
and "7" does not fail with InvalidSelection; only the non-numeric literal
path behaves as the claim states. -/
theorem selectCalendar_at_failing_input :
    selectCalendar [⟨"cal_first", "First"⟩, ⟨"cal_second", "Second"⟩, ⟨"cal_third", "Third"⟩]
        "2" = .ok "cal_first" ∧
    selectCalendar [⟨"cal_first", "First"⟩, ⟨"cal_second", "Second"⟩, ⟨"cal_third", "Third"⟩]
        "7" = .ok "cal_first" ∧
    selectCalendar [⟨"cal_first", "First"⟩, ⟨"cal_second", "Second"⟩, ⟨"cal_third", "Third"⟩]
        "cal_abcdef" = .ok "cal_abcdef" := by
  refine ⟨?_, ?_, ?_⟩ <;> decide

/-- C3: a confirmation input that is not a case-insensitive "y" makes Delete
print the cancellation notice and return success without calling the remote
delete; a confirmation equal to "y" up to case issues the remote delete. -/
theorem deleteEvent_confirmation (idLine confirmLine : String)
    (remoteDelete : String → Except String Unit) :
    (¬goToLower (promptForInput confirmLine) = "y" →
      deleteEvent idLine confirmLine remoteDelete =
        ⟨false, ["Deletion cancelled."], .ok ()⟩) ∧
    (goToLower (promptForInput confirmLine) = "y" →
      (deleteEvent idLine confirmLine remoteDelete).remoteDeleteCalled = true) := by
  constructor
  · intro h
    simp [deleteEvent, h]
  · intro h
    simp only [deleteEvent, h]
    cases remoteDelete (promptForInput idLine) <;> simp

/-- C3 witness: confirmation "n" cancels without a remote call and returns
success; confirmation "Y" issues the remote delete. -/
theorem deleteEvent_confirmation_witness :
    deleteEvent "evt1" "n" (fun _ => .ok ()) = ⟨false, ["Deletion cancelled."], .ok ()⟩ ∧
    (deleteEvent "evt1" "Y" (fun _ => .ok ())).remoteDeleteCalled = true :=
  ⟨(deleteEvent_confirmation "evt1" "n" (fun _ => .ok ())).1 (by decide),
   (deleteEvent_confirmation "evt1" "Y" (fun _ => .ok ())).2 (by decide)⟩

/-- C5: when `parseTime` succeeds, re-parsing the produced RFC 3339 wire
timestamp succeeds and denotes the same instant the civil parse denoted. -/
theorem parseTime_roundTrip (s w : String) (h : parseTime s = .ok w) :
    ∃ c : Civil, parseCivil s.data = some c ∧
      parseRFC3339 w.data = some ⟨c, 0, 0⟩ ∧
      rfcInstantSec ⟨c, 0, 0⟩ = civilInstantSec c := by
  cases hp : parseCivil s.data with
  | none =>
    rw [parseTime, hp] at h
    cases h
  | some c =>
    rw [parseTime, hp] at h
    obtain rfl : formatRFC3339 c = w := by cases h; rfl
    obtain ⟨_, hy, hm1, hm2, hh, hmi, hd1, hd2⟩ := parseCivil_inv hp
    refine ⟨c, rfl, parseRFC3339_formatRFC3339 c hy hm1 hm2 hh hmi hd1 hd2, ?_⟩
    simp [rfcInstantSec, civilInstantSec]

/-- C5 witness: the round trip at the spec's example civil string. -/
theorem parseTime_roundTrip_witness :
    ∃ c : Civil, parseCivil "2024-03-15 09:30".data = some c ∧
      parseRFC3339 "2024-03-15T09:30:00Z".data = some ⟨c, 0, 0⟩ ∧
      rfcInstantSec ⟨c, 0, 0⟩ = civilInstantSec c :=
  parseTime_roundTrip "2024-03-15 09:30" "2024-03-15T09:30:00Z" (by decide)

/-- C6 counterexample: "2024-03-15 9:30" does not match the spec's fixed
zero-padded format, yet `parseTime` accepts it (Go's hour verb `15` is not
zero-padded), so "every non-matching string fails with InvalidFormat" is
false as stated. -/
theorem parseTime_hour_leniency :
    specFixedFormat "2024-03-15 9:30" = false ∧
    parseTime "2024-03-15 9:30" = .ok "2024-03-15T09:30:00Z" := by
  constructor <;> decide

/-- C6 amended: every string outside the accepted civil format — the spec's
fixed format, except that the hour may be one or two digits — fails with the
InvalidFormat error carrying the expected pattern, and no wire timestamp is
produced. -/
theorem parseTime_invalidFormat (s : String) (h : goAcceptedFormat s = false) :
    parseTime s = .error
      (.invalidFormat "YYYY-MM-DD HH:MM" "cannot parse as 2006-01-02 15:04") := by
  cases hp : parseCivil s.data with
  | none => rw [parseTime, hp]
  | some c =>
    exfalso
    have hacc := (parseCivil_inv hp).1
    rw [mk_data s, h] at hacc
    cases hacc

/-- C6 amended witness: a plainly malformed string is rejected with the
pattern-carrying error. -/
theorem parseTime_invalidFormat_witness :
    parseTime "garbage" = .error
      (.invalidFormat "YYYY-MM-DD HH:MM" "cannot parse as 2006-01-02 15:04") :=
  parseTime_invalidFormat "garbage" (by decide)

/-- C8: saving a credential and loading it back from the same path yields the
saved credential, and loading from a path the file system does not hold
yields the NotFound error rather than a crash. -/
theorem credentialStore_roundTrip :
    (∀ (fs : FileSystem) (path : String) (tok : Token),
       tokenFromFile (saveToken fs path tok) path = .ok tok) ∧
    (∀ (fs : FileSystem) (path : String), fs path = none →
       tokenFromFile fs path = .error (.notFound path)) := by
  constructor
  · intro fs path tok
    simp [tokenFromFile, saveToken, decodeToken_encodeToken]
  · intro fs path h
    simp [tokenFromFile, h]

/-- C8 witness: the round trip and the missing-file error at concrete
values. -/
theorem credentialStore_roundTrip_witness :
    tokenFromFile (saveToken (fun _ => none) "/home/user/token.json"
        ⟨"at1", "Bearer", "rt1", "2024-03-15T09:30:00Z"⟩) "/home/user/token.json"
      = .ok ⟨"at1", "Bearer", "rt1", "2024-03-15T09:30:00Z"⟩ ∧
    tokenFromFile (fun _ => none) "/home/user/token.json"
      = .error (.notFound "/home/user/token.json") :=
  ⟨credentialStore_roundTrip.1 (fun _ => none) "/home/user/token.json"
      ⟨"at1", "Bearer", "rt1", "2024-03-15T09:30:00Z"⟩,
   credentialStore_roundTrip.2 (fun _ => none) "/home/user/token.json" rfl⟩


/-- C2: with both bounds successfully parsed, an end instant strictly before
the start instant makes Create — and Update inside the time gate, judged on
the merged (possibly partially updated) bounds — fail with the
ValidationError and issue no remote submission, while start ≤ end passes the
check and the submission carrying those bounds is issued. -/
theorem create_update_end_before_start
    (titleLine descLine startLine endLine : String)
    (remoteInsert : Event → Except String String)
    (stw etw : String)
    (hs : parseTime (promptForInput startLine) = .ok stw)
    (he : parseTime (promptForInput endLine) = .ok etw)
    (idLine tLine dLine gLine sLine eLine : String)
    (remoteGet : String → Except String Event)
    (remoteUpdate : String → Event → Except String String)
    (ev : Event)
    (hget : remoteGet (promptForInput idLine) = .ok ev)
    (hgate : goToLower (promptForInput gLine) = "y")
    (ms me : String)
    (hms : promptForInput sLine = "" ∧ ms = ev.start.dateTime ∨
           promptForInput sLine ≠ "" ∧ parseTime (promptForInput sLine) = .ok ms)
    (hme : promptForInput eLine = "" ∧ me = ev.«end».dateTime ∨
           promptForInput eLine ≠ "" ∧ parseTime (promptForInput eLine) = .ok me)
    (ts te : RFCTime)
    (hpms : parseRFC3339 ms.data = some ts) (hpme : parseRFC3339 me.data = some te) :
    (goInstantOrZero etw < goInstantOrZero stw →
      (createEvent titleLine descLine startLine endLine remoteInsert).submitted = none ∧
      (createEvent titleLine descLine startLine endLine remoteInsert).result
        = .error (.validationError "end time cannot be before start time")) ∧
    (¬goInstantOrZero etw < goInstantOrZero stw →
      ∃ evc, (createEvent titleLine descLine startLine endLine remoteInsert).submitted
          = some evc ∧ evc.start.dateTime = stw ∧ evc.«end».dateTime = etw) ∧
    (rfcInstantSec te < rfcInstantSec ts →
      (updateEvent idLine tLine dLine gLine sLine eLine remoteGet remoteUpdate).submitted = none ∧
      (updateEvent idLine tLine dLine gLine sLine eLine remoteGet remoteUpdate).result
        = .error (.validationError "end time cannot be before start time")) ∧
    (¬rfcInstantSec te < rfcInstantSec ts →
      ∃ evu, (updateEvent idLine tLine dLine gLine sLine eLine remoteGet remoteUpdate).submitted
          = some evu ∧ evu.start.dateTime = ms ∧ evu.«end».dateTime = me) := by
  obtain ⟨sO, eO, heq, hs4, he4⟩ :=
    updateEvent_gateMerged idLine tLine dLine gLine sLine eLine remoteGet remoteUpdate ev
      hget hgate ms me hms hme
  set E4 := withEndWire (withStartWire
    (mergedEvent ev (promptForInput tLine) (promptForInput dLine)) sO) eO with hE4
  have hcmp : (goInstantOrZero E4.«end».dateTime < goInstantOrZero E4.start.dateTime) ↔
      rfcInstantSec te < rfcInstantSec ts := by
    rw [hs4, he4]
    simp [goInstantOrZero, hpms, hpme]
  refine ⟨?_, ?_, ?_, ?_⟩
  · intro hlt
    refine ⟨?_, ?_⟩ <;> simp only [createEvent, hs, he, if_pos hlt]
  · intro hge
    simp only [createEvent, hs, he, if_neg hge]
    split <;> exact ⟨_, rfl, rfl, rfl⟩
  · intro hlt
    refine ⟨?_, ?_⟩ <;> rw [heq, gateSubmit, if_pos (hcmp.mpr hlt)]
  · intro hge
    rw [heq, gateSubmit, if_neg (fun hl => hge (hcmp.mp hl))]
    split <;> exact ⟨E4, rfl, hs4, he4⟩

/-- C2 witness: Create with end one hour before start is rejected without
submission, and Update (gate entered, blank time inputs, fetched bounds
end-before-start) likewise; the passing directions hold vacuously or via the
remote stub. -/
theorem create_update_end_before_start_witness :
    ((goInstantOrZero "2024-03-15T09:30:00Z" < goInstantOrZero "2024-03-15T10:30:00Z" →
      (createEvent "T" "D" "2024-03-15 10:30" "2024-03-15 09:30"
          (fun _ => .ok "id1")).submitted = none ∧
      (createEvent "T" "D" "2024-03-15 10:30" "2024-03-15 09:30"
          (fun _ => .ok "id1")).result
        = .error (.validationError "end time cannot be before start time")) ∧
    (¬goInstantOrZero "2024-03-15T09:30:00Z" < goInstantOrZero "2024-03-15T10:30:00Z" →
      ∃ evc, (createEvent "T" "D" "2024-03-15 10:30" "2024-03-15 09:30"
          (fun _ => .ok "id1")).submitted = some evc ∧
        evc.start.dateTime = "2024-03-15T10:30:00Z" ∧
        evc.«end».dateTime = "2024-03-15T09:30:00Z") ∧
    (rfcInstantSec ⟨⟨2024, 3, 15, 9, 30⟩, 0, 0⟩ < rfcInstantSec ⟨⟨2024, 3, 15, 10, 30⟩, 0, 0⟩ →
      (updateEvent "evt1" "" "" "y" "" ""
          (fun _ => .ok ⟨"T0", "D0", ⟨"2024-03-15T10:30:00Z", "Asia/Kolkata", ""⟩,
            ⟨"2024-03-15T09:30:00Z", "Asia/Kolkata", ""⟩⟩)
          (fun _ _ => .ok "id1")).submitted = none ∧
      (updateEvent "evt1" "" "" "y" "" ""
          (fun _ => .ok ⟨"T0", "D0", ⟨"2024-03-15T10:30:00Z", "Asia/Kolkata", ""⟩,
            ⟨"2024-03-15T09:30:00Z", "Asia/Kolkata", ""⟩⟩)
          (fun _ _ => .ok "id1")).result
        = .error (.validationError "end time cannot be before start time")) ∧
    (¬rfcInstantSec ⟨⟨2024, 3, 15, 9, 30⟩, 0, 0⟩ < rfcInstantSec ⟨⟨2024, 3, 15, 10, 30⟩, 0, 0⟩ →
      ∃ evu, (updateEvent "evt1" "" "" "y" "" ""
          (fun _ => .ok ⟨"T0", "D0", ⟨"2024-03-15T10:30:00Z", "Asia/Kolkata", ""⟩,
            ⟨"2024-03-15T09:30:00Z", "Asia/Kolkata", ""⟩⟩)
          (fun _ _ => .ok "id1")).submitted = some evu ∧
        evu.start.dateTime = "2024-03-15T10:30:00Z" ∧
        evu.«end».dateTime = "2024-03-15T09:30:00Z")) :=
  create_update_end_before_start "T" "D" "2024-03-15 10:30" "2024-03-15 09:30"
    (fun _ => .ok "id1") "2024-03-15T10:30:00Z" "2024-03-15T09:30:00Z"
    (by decide) (by decide)
    "evt1" "" "" "y" "" ""
    (fun _ => .ok ⟨"T0", "D0", ⟨"2024-03-15T10:30:00Z", "Asia/Kolkata", ""⟩,
      ⟨"2024-03-15T09:30:00Z", "Asia/Kolkata", ""⟩⟩)
    (fun _ _ => .ok "id1")
    ⟨"T0", "D0", ⟨"2024-03-15T10:30:00Z", "Asia/Kolkata", ""⟩,
      ⟨"2024-03-15T09:30:00Z", "Asia/Kolkata", ""⟩⟩
    rfl (by decide)
    "2024-03-15T10:30:00Z" "2024-03-15T09:30:00Z"
    (Or.inl ⟨by decide, rfl⟩) (Or.inl ⟨by decide, rfl⟩)
    ⟨⟨2024, 3, 15, 10, 30⟩, 0, 0⟩ ⟨⟨2024, 3, 15, 9, 30⟩, 0, 0⟩
    (by decide) (by decide)


/-- C7 counterexample: the wire timestamp `parseTime` produces for the spec's
example embeds the UTC designator (offset 0), not the fixed configured zone
Asia/Kolkata (+05:30 = 330 minutes): the civil string is interpreted in UTC,
and the configured zone is not embedded in the produced timestamp. -/
theorem parseTime_zone_counterexample :
    parseTime "2024-03-15 09:30" = .ok "2024-03-15T09:30:00Z" ∧
    parseRFC3339 "2024-03-15T09:30:00Z".data = some ⟨⟨2024, 3, 15, 9, 30⟩, 0, 0⟩ ∧
    (0 : Int) ≠ kolkataOffsetMin := by
  refine ⟨?_, ?_, ?_⟩ <;> decide

/-- C7 amended: `parseTime` interprets the civil string in UTC and produces a
wire timestamp embedding UTC (offset 0, same civil fields); the fixed
configured time zone is attached separately, as the TimeZone field of both
bounds of the event Create submits. -/
theorem parseTime_utc_wire_and_zone_field
    (s : String) (c : Civil) (hp : parseCivil s.data = some c)
    (titleLine descLine startLine endLine : String)
    (remoteInsert : Event → Except String String) (evc : Event)
    (hsub : (createEvent titleLine descLine startLine endLine remoteInsert).submitted
      = some evc) :
    parseTime s = .ok (formatRFC3339 c) ∧
    (∃ t : RFCTime, parseRFC3339 (formatRFC3339 c).data = some t ∧
      t.offsetMin = 0 ∧ t.civil = c) ∧
    evc.start.timeZone = timeZone ∧ evc.«end».timeZone = timeZone := by
  obtain ⟨_, hy, hm1, hm2, hh, hmi, hd1, hd2⟩ := parseCivil_inv hp
  have hzone : evc.start.timeZone = timeZone ∧ evc.«end».timeZone = timeZone := by
    cases hps : parseTime (promptForInput startLine) with
    | error e => simp [createEvent, hps] at hsub
    | ok stw =>
      cases hpe : parseTime (promptForInput endLine) with
      | error e => simp [createEvent, hps, hpe] at hsub
      | ok etw =>
        by_cases hlt : goInstantOrZero etw < goInstantOrZero stw
        · simp [createEvent, hps, hpe, if_pos hlt] at hsub
        · simp only [createEvent, hps, hpe, if_neg hlt] at hsub
          split at hsub <;>
          · simp only [Option.some.injEq] at hsub
            subst hsub
            exact ⟨rfl, rfl⟩
  exact ⟨by rw [parseTime, hp],
    ⟨⟨c, 0, 0⟩, parseRFC3339_formatRFC3339 c hy hm1 hm2 hh hmi hd1 hd2, rfl, rfl⟩,
    hzone.1, hzone.2⟩

/-- C7 amended witness: the example civil string parses to the UTC wire form,
and a concrete successful Create attaches Asia/Kolkata to both bounds. -/
theorem parseTime_utc_wire_and_zone_field_witness :
    parseTime "2024-03-15 09:30" = .ok (formatRFC3339 ⟨2024, 3, 15, 9, 30⟩) ∧
    (∃ t : RFCTime, parseRFC3339 (formatRFC3339 ⟨2024, 3, 15, 9, 30⟩).data = some t ∧
      t.offsetMin = 0 ∧ t.civil = ⟨2024, 3, 15, 9, 30⟩) ∧
    (⟨"Standup", "Weekly sync", ⟨"2024-03-15T09:30:00Z", "Asia/Kolkata", ""⟩,
      ⟨"2024-03-15T10:30:00Z", "Asia/Kolkata", ""⟩⟩ : Event).start.timeZone = timeZone ∧
    (⟨"Standup", "Weekly sync", ⟨"2024-03-15T09:30:00Z", "Asia/Kolkata", ""⟩,
      ⟨"2024-03-15T10:30:00Z", "Asia/Kolkata", ""⟩⟩ : Event).«end».timeZone = timeZone :=
  parseTime_utc_wire_and_zone_field "2024-03-15 09:30" ⟨2024, 3, 15, 9, 30⟩ (by decide)
    "Standup" "Weekly sync" "2024-03-15 09:30" "2024-03-15 10:30" (fun _ => .ok "id1")
    ⟨"Standup", "Weekly sync", ⟨"2024-03-15T09:30:00Z", "Asia/Kolkata", ""⟩,
      ⟨"2024-03-15T10:30:00Z", "Asia/Kolkata", ""⟩⟩
    (by decide)


theorem withStartWire_summary (ev : Event) (o : Option String) :
    (withStartWire ev o).summary = ev.summary := by cases o <;> rfl

theorem withStartWire_description (ev : Event) (o : Option String) :
    (withStartWire ev o).description = ev.description := by cases o <;> rfl

theorem withEndWire_summary (ev : Event) (o : Option String) :
    (withEndWire ev o).summary = ev.summary := by cases o <;> rfl

theorem withEndWire_description (ev : Event) (o : Option String) :
    (withEndWire ev o).description = ev.description := by cases o <;> rfl

/-- C4: in Update, a blank title or description input leaves that field of
the submitted event equal to the fetched value, whatever else happens; and a
non-blank title with a blank description and a declined time gate submits
exactly the fetched event with only the title replaced. -/
theorem updateEvent_blank_keeps_fields
    (idLine tLine dLine gLine sLine eLine : String)
    (remoteGet : String → Except String Event)
    (remoteUpdate : String → Event → Except String String)
    (ev : Event)
    (hget : remoteGet (promptForInput idLine) = .ok ev) :
    (∀ ev' : Event,
      (updateEvent idLine tLine dLine gLine sLine eLine remoteGet remoteUpdate).submitted
          = some ev' →
      (promptForInput tLine = "" → ev'.summary = ev.summary) ∧
      (promptForInput dLine = "" → ev'.description = ev.description)) ∧
    (promptForInput tLine ≠ "" → promptForInput dLine = "" →
      ¬goToLower (promptForInput gLine) = "y" →
      (updateEvent idLine tLine dLine gLine sLine eLine remoteGet remoteUpdate).submitted
        = some { ev with summary := promptForInput tLine }) := by
  constructor
  · intro ev' h
    by_cases hg : goToLower (promptForInput gLine) = "y"
    · -- the gate is entered: the submission, if any, is the merged event
      have hmerged : ∃ sO eO : Option String,
          ev' = withEndWire (withStartWire
            (mergedEvent ev (promptForInput tLine) (promptForInput dLine)) sO) eO := by
        by_cases hsb : promptForInput sLine = ""
        · by_cases heb : promptForInput eLine = ""
          · obtain ⟨sO, eO, heq, _, _⟩ :=
              updateEvent_gateMerged idLine tLine dLine gLine sLine eLine remoteGet
                remoteUpdate ev hget hg ev.start.dateTime ev.«end».dateTime
                (Or.inl ⟨hsb, rfl⟩) (Or.inl ⟨heb, rfl⟩)
            rw [heq, gateSubmit] at h
            split at h
            · simp at h
            · split at h <;>
              · simp only [Option.some.injEq] at h
                exact ⟨sO, eO, h.symm⟩
          · cases hpe : parseTime (promptForInput eLine) with
            | error e =>
              simp [updateEvent, hget, hg, hsb, heb, hpe] at h
            | ok et =>
              obtain ⟨sO, eO, heq, _, _⟩ :=
                updateEvent_gateMerged idLine tLine dLine gLine sLine eLine remoteGet
                  remoteUpdate ev hget hg ev.start.dateTime et
                  (Or.inl ⟨hsb, rfl⟩) (Or.inr ⟨heb, hpe⟩)
              rw [heq, gateSubmit] at h
              split at h
              · simp at h
              · split at h <;>
                · simp only [Option.some.injEq] at h
                  exact ⟨sO, eO, h.symm⟩
        · cases hps : parseTime (promptForInput sLine) with
          | error e =>
            simp [updateEvent, hget, hg, hsb, hps] at h
          | ok st =>
            by_cases heb : promptForInput eLine = ""
            · obtain ⟨sO, eO, heq, _, _⟩ :=
                updateEvent_gateMerged idLine tLine dLine gLine sLine eLine remoteGet
                  remoteUpdate ev hget hg st ev.«end».dateTime
                  (Or.inr ⟨hsb, hps⟩) (Or.inl ⟨heb, rfl⟩)
              rw [heq, gateSubmit] at h
              split at h
              · simp at h
              · split at h <;>
                · simp only [Option.some.injEq] at h
                  exact ⟨sO, eO, h.symm⟩
            · cases hpe : parseTime (promptForInput eLine) with
              | error e =>
                simp [updateEvent, hget, hg, hsb, hps, heb, hpe] at h
              | ok et =>
                obtain ⟨sO, eO, heq, _, _⟩ :=
                  updateEvent_gateMerged idLine tLine dLine gLine sLine eLine remoteGet
                    remoteUpdate ev hget hg st et
                    (Or.inr ⟨hsb, hps⟩) (Or.inr ⟨heb, hpe⟩)
                rw [heq, gateSubmit] at h
                split at h
                · simp at h
                · split at h <;>
                  · simp only [Option.some.injEq] at h
                    exact ⟨sO, eO, h.symm⟩
      obtain ⟨sO, eO, rfl⟩ := hmerged
      constructor
      · intro ht
        rw [withEndWire_summary, withStartWire_summary, mergedEvent_summary]
        simp [ht]
      · intro hd
        rw [withEndWire_description, withStartWire_description, mergedEvent_description]
        simp [hd]
    · obtain ⟨ev2, hsum, hdesc, _, _, heq⟩ :=
        updateEvent_gateDeclined idLine tLine dLine gLine sLine eLine remoteGet
          remoteUpdate ev hget hg
      rw [heq] at h
      have hev2 : ev' = ev2 := by
        split at h <;>
        · simp only [Option.some.injEq] at h
          exact h.symm
      subst hev2
      constructor
      · intro ht
        rw [hsum]
        simp [ht]
      · intro hd
        rw [hdesc]
        simp [hd]
  · intro ht hd hg
    obtain ⟨ev2, hsum, hdesc, hst, hen, heq⟩ :=
      updateEvent_gateDeclined idLine tLine dLine gLine sLine eLine remoteGet
        remoteUpdate ev hget hg
    have hev2 : ev2 = { ev with summary := promptForInput tLine } := by
      obtain ⟨s2, d2, st2, en2⟩ := ev2
      simp only at hsum hdesc hst hen
      rw [if_pos ht] at hsum
      rw [if_neg (by simp [hd])] at hdesc
      rw [hsum, hdesc, hst, hen]
    rw [heq]
    split <;> rw [hev2]

/-- C4 witness: a non-blank title with blank description and a declined gate
submits the fetched event with only the title replaced (so the blank
description and both bounds are kept). -/
theorem updateEvent_blank_keeps_fields_witness :
    (updateEvent "evt1" "NewTitle" "" "n" "" ""
        (fun _ => .ok ⟨"T0", "D0", ⟨"2024-03-15T09:30:00Z", "Asia/Kolkata", ""⟩,
          ⟨"2024-03-15T10:30:00Z", "Asia/Kolkata", ""⟩⟩)
        (fun _ _ => .ok "id1")).submitted
      = some { (⟨"T0", "D0", ⟨"2024-03-15T09:30:00Z", "Asia/Kolkata", ""⟩,
          ⟨"2024-03-15T10:30:00Z", "Asia/Kolkata", ""⟩⟩ : Event) with summary := "NewTitle" } :=
  (updateEvent_blank_keeps_fields "evt1" "NewTitle" "" "n" "" ""
      (fun _ => .ok ⟨"T0", "D0", ⟨"2024-03-15T09:30:00Z", "Asia/Kolkata", ""⟩,
        ⟨"2024-03-15T10:30:00Z", "Asia/Kolkata", ""⟩⟩)
      (fun _ _ => .ok "id1")
      ⟨"T0", "D0", ⟨"2024-03-15T09:30:00Z", "Asia/Kolkata", ""⟩,
        ⟨"2024-03-15T10:30:00Z", "Asia/Kolkata", ""⟩⟩ rfl).2
    (by decide) rfl (by decide)


/-- C9: once the fetch succeeds, Update always issues exactly one remote
submission whenever it does not abort: a session with every input blank
re-submits the fetched event unchanged (no no-op short-circuit), any
gate-declined session submits, and a gate-entered session with blank time
inputs submits whenever the start-before-end check passes. -/
theorem updateEvent_always_submits
    (idLine : String)
    (remoteGet : String → Except String Event)
    (remoteUpdate : String → Event → Except String String)
    (ev : Event)
    (hget : remoteGet (promptForInput idLine) = .ok ev) :
    (updateEvent idLine "" "" "" "" "" remoteGet remoteUpdate).submitted = some ev ∧
    (∀ tLine dLine gLine sLine eLine, ¬goToLower (promptForInput gLine) = "y" →
      ((updateEvent idLine tLine dLine gLine sLine eLine remoteGet remoteUpdate).submitted).isSome
        = true) ∧
    (∀ tLine dLine gLine, goToLower (promptForInput gLine) = "y" →
      ¬goInstantOrZero ev.«end».dateTime < goInstantOrZero ev.start.dateTime →
      ((updateEvent idLine tLine dLine gLine "" "" remoteGet remoteUpdate).submitted).isSome
        = true) := by
  refine ⟨?_, ?_, ?_⟩
  · obtain ⟨ev2, hsum, hdesc, hst, hen, heq⟩ :=
      updateEvent_gateDeclined idLine "" "" "" "" "" remoteGet remoteUpdate ev hget
        (by decide)
    have hev2 : ev2 = ev := by
      obtain ⟨s2, d2, st2, en2⟩ := ev2
      simp only at hsum hdesc hst hen
      rw [if_neg (by decide)] at hsum
      rw [if_neg (by decide)] at hdesc
      rw [hsum, hdesc, hst, hen]
    rw [heq]
    split <;> rw [hev2]
  · intro tLine dLine gLine sLine eLine hg
    obtain ⟨ev2, _, _, _, _, heq⟩ :=
      updateEvent_gateDeclined idLine tLine dLine gLine sLine eLine remoteGet
        remoteUpdate ev hget hg
    rw [heq]
    split <;> rfl
  · intro tLine dLine gLine hg hge
    obtain ⟨sO, eO, heq, hs4, he4⟩ :=
      updateEvent_gateMerged idLine tLine dLine gLine "" "" remoteGet remoteUpdate ev
        hget hg ev.start.dateTime ev.«end».dateTime
        (Or.inl ⟨rfl, rfl⟩) (Or.inl ⟨rfl, rfl⟩)
    rw [heq, gateSubmit, if_neg (by rw [hs4, he4]; exact hge)]
    split <;> rfl

/-- C9 witness: an all-blank session against a stub remote re-submits the
fetched event itself. -/
theorem updateEvent_always_submits_witness :
    (updateEvent "evt1" "" "" "" "" ""
        (fun _ => .ok ⟨"T0", "D0", ⟨"2024-03-15T09:30:00Z", "Asia/Kolkata", ""⟩,
          ⟨"2024-03-15T10:30:00Z", "Asia/Kolkata", ""⟩⟩)
        (fun _ _ => .ok "id1")).submitted
      = some ⟨"T0", "D0", ⟨"2024-03-15T09:30:00Z", "Asia/Kolkata", ""⟩,
          ⟨"2024-03-15T10:30:00Z", "Asia/Kolkata", ""⟩⟩ :=
  (updateEvent_always_submits "evt1"
      (fun _ => .ok ⟨"T0", "D0", ⟨"2024-03-15T09:30:00Z", "Asia/Kolkata", ""⟩,
        ⟨"2024-03-15T10:30:00Z", "Asia/Kolkata", ""⟩⟩)
      (fun _ _ => .ok "id1")
      ⟨"T0", "D0", ⟨"2024-03-15T09:30:00Z", "Asia/Kolkata", ""⟩,
        ⟨"2024-03-15T10:30:00Z", "Asia/Kolkata", ""⟩⟩ rfl).1

/-- C10: a discarded RFC 3339 parse error leaves the zero instant standing in
for the unparseable bound, so an event whose bounds are not wire-format
date-times (e.g. an all-day event with empty date-time fields) passes the
start-before-end check when the time inputs are left blank, and the
submission proceeds without a validation error. -/
theorem updateEvent_allDay_zero_instant :
    (∀ s : String, parseRFC3339 s.data = none → goInstantOrZero s = zeroInstantSec) ∧
    (∀ (idLine tLine dLine gLine : String)
       (remoteGet : String → Except String Event)
       (remoteUpdate : String → Event → Except String String) (ev : Event),
      remoteGet (promptForInput idLine) = .ok ev →
      parseRFC3339 ev.start.dateTime.data = none →
      parseRFC3339 ev.«end».dateTime.data = none →
      goToLower (promptForInput gLine) = "y" →
      ((updateEvent idLine tLine dLine gLine "" "" remoteGet remoteUpdate).submitted).isSome
          = true ∧
      (updateEvent idLine tLine dLine gLine "" "" remoteGet remoteUpdate).result
          ≠ .error (.validationError "end time cannot be before start time")) := by
  have hzero : ∀ s : String, parseRFC3339 s.data = none → goInstantOrZero s = zeroInstantSec := by
    intro s h
    rw [goInstantOrZero, h]
  refine ⟨hzero, ?_⟩
  intro idLine tLine dLine gLine remoteGet remoteUpdate ev hget hsn hen hg
  obtain ⟨sO, eO, heq, hs4, he4⟩ :=
    updateEvent_gateMerged idLine tLine dLine gLine "" "" remoteGet remoteUpdate ev
      hget hg ev.start.dateTime ev.«end».dateTime
      (Or.inl ⟨rfl, rfl⟩) (Or.inl ⟨rfl, rfl⟩)
  have hcond : ¬goInstantOrZero (withEndWire (withStartWire
      (mergedEvent ev (promptForInput tLine) (promptForInput dLine)) sO) eO).«end».dateTime
      < goInstantOrZero (withEndWire (withStartWire
      (mergedEvent ev (promptForInput tLine) (promptForInput dLine)) sO) eO).start.dateTime := by
    rw [hs4, he4, hzero ev.start.dateTime hsn, hzero ev.«end».dateTime hen]
    simp
  rw [heq, gateSubmit, if_neg hcond]
  constructor
  · split <;> rfl
  · split <;> simp

/-- C10 witness: an all-day event (empty date-time fields, dates only) with
blank time inputs is re-submitted without a validation error. -/
theorem updateEvent_allDay_zero_instant_witness :
    ((updateEvent "evt1" "" "" "y" "" ""
        (fun _ => .ok ⟨"T0", "D0", ⟨"", "Asia/Kolkata", "2024-03-15"⟩,
          ⟨"", "Asia/Kolkata", "2024-03-16"⟩⟩)
        (fun _ _ => .ok "id1")).submitted).isSome = true ∧
    (updateEvent "evt1" "" "" "y" "" ""
        (fun _ => .ok ⟨"T0", "D0", ⟨"", "Asia/Kolkata", "2024-03-15"⟩,
          ⟨"", "Asia/Kolkata", "2024-03-16"⟩⟩)
        (fun _ _ => .ok "id1")).result
      ≠ .error (.validationError "end time cannot be before start time") :=
  updateEvent_allDay_zero_instant.2 "evt1" "" "" "y"
    (fun _ => .ok ⟨"T0", "D0", ⟨"", "Asia/Kolkata", "2024-03-15"⟩,
      ⟨"", "Asia/Kolkata", "2024-03-16"⟩⟩)
    (fun _ _ => .ok "id1")
    ⟨"T0", "D0", ⟨"", "Asia/Kolkata", "2024-03-15"⟩, ⟨"", "Asia/Kolkata", "2024-03-16"⟩⟩
    rfl (by decide) (by decide) (by decide)

end TnpCalendar
